import Mathlib

/-!
# journalctl-proxy: the `/list-services` and `/ws` handlers of `main.go`

A shallow embedding of the two request handlers of `src/main.go` and the
properties of the journalctl argument builder, the line forwarding loop and
the service listing.

Go strings are modelled by Lean `String`s.  Every string the handlers inspect
with `strings.HasSuffix` comes out of `json.Unmarshal`, which only produces
valid UTF-8, and the marker `.docker` is ASCII, so comparing characters and
comparing bytes agree.
-/

namespace JournalctlProxy

/-! ## Go `strings` helpers used by the handlers -/

/-- Go `strings.HasSuffix`: `len(s) >= len(suffix) && s[len(s)-len(suffix):] == suffix`. -/
def hasSuffix (s suffix : String) : Bool :=
  decide (suffix.data.length ≤ s.data.length) &&
    (s.data.drop (s.data.length - suffix.data.length) == suffix.data)

/-- Go `strings.TrimSuffix`: drops `suffix` once when `s` ends with it, else returns `s`. -/
def trimSuffix (s suffix : String) : String :=
  if hasSuffix s suffix then ⟨s.data.take (s.data.length - suffix.data.length)⟩ else s

/-- Go `strings.HasPrefix`: `len(s) >= len(p) && s[:len(p)] == p`.  Not called by
the handlers; it is used below to recognise the per-service filter clauses. -/
def beginsWith (s pre : String) : Bool :=
  decide (pre.data.length ≤ s.data.length) && (s.data.take pre.data.length == pre.data)

/-! ## `/ws` handler: journalctl argument construction (main.go lines 113-129) -/

/-- One iteration of the `for _, service := range services` loop (lines 117-125). -/
def appendService (user docker : Bool) (args : List String) (service : String) : List String :=
  if docker && hasSuffix service ".docker" then
    args ++ ["CONTAINER_ID_FULL=" ++ trimSuffix service ".docker", "+"]
  else if user then
    args ++ ["_SYSTEMD_USER_UNIT=" ++ service, "+"]
  else
    args ++ ["_SYSTEMD_UNIT=" ++ service, "+"]

/-- The argument list handed to `journalctl` (lines 113-129).  `none` stands for
the runtime panic of the index expression `args[len(args)-1]` on an empty slice. -/
def buildArgs (user docker : Bool) (services : List String) : Option (List String) :=
  let args := ["-b"]
  let args := if user then args ++ ["--user"] else args
  let args := services.foldl (appendService user docker) args
  match args[args.length - 1]? with
  | none => none
  | some last =>
    let args := if last == "+" then args.take (args.length - 1) else args
    some (args ++ ["--all", "-f", "-n", "100", "-o", "json"])

/-! ### Normalized form of the argument list (specification side) -/

/-- Arguments placed before the per-service filters. -/
def baseArgs (user : Bool) : List String :=
  if user then ["-b", "--user"] else ["-b"]

/-- Arguments placed after the per-service filters. -/
def tailArgs : List String := ["--all", "-f", "-n", "100", "-o", "json"]

/-- The filter clause of one selected service, as the specification words it: the
container filter when container mode is on and the identifier ends in `.docker`,
else the user-unit filter in user scope, else the system-unit filter. -/
def clause (user docker : Bool) (s : String) : String :=
  if docker && hasSuffix s ".docker" then "CONTAINER_ID_FULL=" ++ trimSuffix s ".docker"
  else if user then "_SYSTEMD_USER_UNIT=" ++ s
  else "_SYSTEMD_UNIT=" ++ s

/-- The normalized argument list: base arguments, the clauses of the selected
services in input order with one `+` between successive clauses, tail arguments. -/
def normalizedArgs (user docker : Bool) (services : List String) : List String :=
  baseArgs user ++ List.intersperse "+" (services.map (clause user docker)) ++ tailArgs

/-- Recognises a per-service filter clause: an argument of the form
`CONTAINER_ID_FULL=...`, `_SYSTEMD_USER_UNIT=...` or `_SYSTEMD_UNIT=...`. -/
def isFilterClause (a : String) : Bool :=
  beginsWith a "CONTAINER_ID_FULL=" || beginsWith a "_SYSTEMD_USER_UNIT=" ||
    beginsWith a "_SYSTEMD_UNIT="

/-! ## Decoding the `services` query parameter (main.go lines 110-111)

The handler runs `json.Unmarshal([]byte(c.Query("services")), &services)` on a
fresh empty slice and discards the returned error.  `json.Unmarshal` belongs to
the Go standard library (`encoding/json`); the definitions of this section model
it for the target type `[]string`, following the library documentation:

* the whole input is checked for JSON syntax first, and on a syntax error the
  target is left untouched;
* a JSON array is stored element by element; "if a JSON value is not appropriate
  for a given target type ... Unmarshal skips that field and completes the
  unmarshaling as best it can", so an element that is not a string leaves the
  zero value `""` at its index and decoding goes on with the next element;
* `null` and any top-level value that is not an array leave no element.

The input is a Lean `String`, hence well-formed Unicode text.
-/

/-- A JSON value.  Numbers carry no payload: no string is ever decoded from one. -/
inductive JVal where
  | null
  | bool (b : Bool)
  | num
  | str (s : String)
  | arr (elems : List JVal)
  | obj (members : List (String × JVal))

/-- JSON insignificant whitespace: space, tab, carriage return, line feed. -/
def isSpace (c : Char) : Bool :=
  c.toNat == 32 || c.toNat == 9 || c.toNat == 13 || c.toNat == 10

/-- Drops leading whitespace. -/
def skipSpace : List Char → List Char
  | [] => []
  | c :: cs => if isSpace c then skipSpace cs else c :: cs

/-- Decimal digit `0`..`9`. -/
def isDigit (c : Char) : Bool := 48 ≤ c.toNat && c.toNat ≤ 57

/-- Drops leading decimal digits. -/
def skipDigits : List Char → List Char
  | [] => []
  | c :: cs => if isDigit c then skipDigits cs else c :: cs

/-- Value of a hexadecimal digit (`0-9`, `a-f`, `A-F`). -/
def hexVal (c : Char) : Option Nat :=
  if 48 ≤ c.toNat && c.toNat ≤ 57 then some (c.toNat - 48)
  else if 97 ≤ c.toNat && c.toNat ≤ 102 then some (c.toNat - 87)
  else if 65 ≤ c.toNat && c.toNat ≤ 70 then some (c.toNat - 55)
  else none

/-- Reads the four hexadecimal digits of a `\uXXXX` escape. -/
def getu4 : List Char → Option (Nat × List Char)
  | a :: b :: c :: d :: rest =>
    match hexVal a, hexVal b, hexVal c, hexVal d with
    | some a, some b, some c, some d => some (((a * 16 + b) * 16 + c) * 16 + d, rest)
    | _, _, _, _ => none
  | _ => none

/-- UTF-16 surrogate code unit. -/
def isSurrogate (r : Nat) : Bool := 0xd800 ≤ r && r < 0xe000

/-- Code point of a valid UTF-16 surrogate pair. -/
def decodeSurrogates (r1 r2 : Nat) : Option Nat :=
  if 0xd800 ≤ r1 && r1 < 0xdc00 && 0xdc00 ≤ r2 && r2 < 0xe000 then
    some ((r1 - 0xd800) * 0x400 + (r2 - 0xdc00) + 0x10000)
  else none

/-- U+FFFD, substituted for an unpaired surrogate escape. -/
def replacementChar : Char := Char.ofNat 0xfffd

/-- Reads a JSON string after its opening quote and returns the unescaped text and
the input after the closing quote.  Character 34 is the double quote, 92 the
backslash; characters below 32 are not allowed unescaped. -/
def parseString : Nat → List Char → List Char → Option (String × List Char)
  | 0, _, _ => none
  | _ + 1, [], _ => none
  | fuel + 1, c :: cs, acc =>
    if c.toNat == 34 then some (String.mk acc, cs)
    else if c.toNat == 92 then
      match cs with
      | [] => none
      | e :: rest =>
        if e.toNat == 34 || e.toNat == 92 || e == '/' then parseString fuel rest (acc ++ [e])
        else if e == 'b' then parseString fuel rest (acc ++ [Char.ofNat 8])
        else if e == 'f' then parseString fuel rest (acc ++ [Char.ofNat 12])
        else if e == 'n' then parseString fuel rest (acc ++ [Char.ofNat 10])
        else if e == 'r' then parseString fuel rest (acc ++ [Char.ofNat 13])
        else if e == 't' then parseString fuel rest (acc ++ [Char.ofNat 9])
        else if e == 'u' then
          match getu4 rest with
          | none => none
          | some (r1, rest1) =>
            if isSurrogate r1 then
              match rest1 with
              | b :: u :: rest2 =>
                if b.toNat == 92 && u == 'u' then
                  match getu4 rest2 with
                  | some (r2, rest3) =>
                    match decodeSurrogates r1 r2 with
                    | some r => parseString fuel rest3 (acc ++ [Char.ofNat r])
                    | none => parseString fuel rest1 (acc ++ [replacementChar])
                  | none => parseString fuel rest1 (acc ++ [replacementChar])
                else parseString fuel rest1 (acc ++ [replacementChar])
              | _ => parseString fuel rest1 (acc ++ [replacementChar])
            else parseString fuel rest1 (acc ++ [Char.ofNat r1])
        else none
    else if c.toNat < 32 then none
    else parseString fuel cs (acc ++ [c])

/-- Optional exponent part of a number; returns the input after the number. -/
def parseExp (cs : List Char) : Option (List Char) :=
  match cs with
  | [] => some []
  | e :: rest =>
    if e == 'e' || e == 'E' then
      let rest := match rest with
        | [] => []
        | s :: r => if s == '+' || s == '-' then r else s :: r
      match rest with
      | [] => none
      | d :: r => if isDigit d then some (skipDigits r) else none
    else some (e :: rest)

/-- Optional fraction part of a number, then the exponent part. -/
def parseFrac (cs : List Char) : Option (List Char) :=
  match cs with
  | [] => some []
  | p :: rest =>
    if p == '.' then
      match rest with
      | [] => none
      | d :: r => if isDigit d then parseExp (skipDigits r) else none
    else parseExp (p :: rest)

/-- Reads a JSON number (`-`? then `0` or a digit run without leading zero, then
fraction and exponent) and returns the input after it. -/
def parseNumber (cs : List Char) : Option (List Char) :=
  let cs := match cs with
    | [] => []
    | m :: r => if m == '-' then r else m :: r
  match cs with
  | [] => none
  | d :: r =>
    if d == '0' then parseFrac r
    else if isDigit d then parseFrac (skipDigits r)
    else none

/-- Nesting limit of the library scanner: deeper arrays or objects are a syntax error. -/
def maxNestingDepth : Nat := 10000

mutual
/-- Reads one JSON value at the head of the input; `depth` counts the enclosing
arrays and objects.  Each nesting level and each further element costs one unit
of fuel and consumes at least one character, so a fuel above the input length is
never exhausted. -/
def parseValue : Nat → Nat → List Char → Option (JVal × List Char)
  | 0, _, _ => none
  | _ + 1, _, [] => none
  | fuel + 1, depth, c :: cs =>
    if c == '[' then
      if depth + 1 > maxNestingDepth then none
      else
        match skipSpace cs with
        | [] => none
        | d :: rest =>
          if d == ']' then some (JVal.arr [], rest)
          else
            match parseElems fuel (depth + 1) (d :: rest) with
            | some (elems, rest) => some (JVal.arr elems, rest)
            | none => none
    else if c.toNat == 123 then
      if depth + 1 > maxNestingDepth then none
      else
        match skipSpace cs with
        | [] => none
        | d :: rest =>
          if d.toNat == 125 then some (JVal.obj [], rest)
          else
            match parseMembers fuel (depth + 1) (d :: rest) with
            | some (members, rest) => some (JVal.obj members, rest)
            | none => none
    else if c.toNat == 34 then
      match parseString (fuel + 1) cs [] with
      | some (s, rest) => some (JVal.str s, rest)
      | none => none
    else if c == 't' then
      match cs with
      | 'r' :: 'u' :: 'e' :: rest => some (JVal.bool true, rest)
      | _ => none
    else if c == 'f' then
      match cs with
      | 'a' :: 'l' :: 's' :: 'e' :: rest => some (JVal.bool false, rest)
      | _ => none
    else if c == 'n' then
      match cs with
      | 'u' :: 'l' :: 'l' :: rest => some (JVal.null, rest)
      | _ => none
    else
      match parseNumber (c :: cs) with
      | some rest => some (JVal.num, rest)
      | none => none
/-- Reads the elements of a non-empty array up to and including the closing bracket. -/
def parseElems : Nat → Nat → List Char → Option (List JVal × List Char)
  | 0, _, _ => none
  | fuel + 1, depth, cs =>
    match parseValue fuel depth cs with
    | none => none
    | some (v, rest) =>
      match skipSpace rest with
      | [] => none
      | d :: rest =>
        if d == ']' then some ([v], rest)
        else if d == ',' then
          match parseElems fuel depth (skipSpace rest) with
          | some (vs, rest) => some (v :: vs, rest)
          | none => none
        else none
/-- Reads the members of a non-empty object up to and including the closing brace
(character 125). -/
def parseMembers : Nat → Nat → List Char → Option (List (String × JVal) × List Char)
  | 0, _, _ => none
  | _ + 1, _, [] => none
  | fuel + 1, depth, q :: cs =>
    if q.toNat == 34 then
      match parseString (fuel + 1) cs [] with
      | none => none
      | some (k, rest) =>
        match skipSpace rest with
        | [] => none
        | colon :: rest =>
          if colon == ':' then
            match parseValue fuel depth (skipSpace rest) with
            | none => none
            | some (v, rest) =>
              match skipSpace rest with
              | [] => none
              | d :: rest =>
                if d.toNat == 125 then some ([(k, v)], rest)
                else if d == ',' then
                  match parseMembers fuel depth (skipSpace rest) with
                  | some (ms, rest) => some ((k, v) :: ms, rest)
                  | none => none
                else none
          else none
    else none
end

/-- Parses a complete JSON text: one value between optional whitespace.  `none` is
the syntax error of `json.Unmarshal`. -/
def parseJSON (data : String) : Option JVal :=
  match parseValue (data.data.length + 1) 0 (skipSpace data.data) with
  | none => none
  | some (v, rest) => if (skipSpace rest).isEmpty then some v else none

/-- Decoding one array element into a fresh `string`: a JSON string is stored, any
other value leaves the zero value. -/
def decodeElem : JVal → String
  | JVal.str s => s
  | _ => ""

/-- Lines 110-111: `services := []string{}` followed by
`json.Unmarshal([]byte(query), &services)` with the error discarded. -/
def decodeServices (query : String) : List String :=
  match parseJSON query with
  | some (JVal.arr elems) => elems.map decodeElem
  | _ => []

/-- The journalctl arguments the `/ws` handler builds for the raw value of the
`services` query parameter (lines 110-129). -/
def wsArgs (user docker : Bool) (query : String) : Option (List String) :=
  buildArgs user docker (decodeServices query)

/-- Tells whether a JSON value is a string. -/
def isStr : JVal → Bool
  | JVal.str _ => true
  | _ => false

/-- Tells whether the parameter value is a JSON array of strings. -/
def isStringArray (query : String) : Bool :=
  match parseJSON query with
  | some (JVal.arr elems) => elems.all isStr
  | _ => false

/-! ## `/ws` handler: forwarding loop (main.go lines 141-150) -/

/-- Observable steps of the forwarding loop. -/
inductive Event where
  | scan (line : String)
  | write (messageType : Nat) (message : String) (ok : Bool)
  | close
  | cancel
  | wait
deriving DecidableEq

/-! ### The scanner of line 141

`bufio.NewScanner(stdout)` belongs to the Go standard library.  It splits the
subprocess output with `bufio.ScanLines` and keeps the default token limit
`bufio.MaxScanTokenSize`: a line ends at a line feed or at the end of the output,
one trailing carriage return is dropped from it, and when the bytes of a line
fill the 64 KiB buffer before its line feed arrives `Scan` returns false with
`ErrTooLong`, which the handler never reads.  The subprocess output is modelled
as text, and the length of a line is its UTF-8 length in bytes.
-/

/-- Go `bufio.MaxScanTokenSize`, the buffer limit of a scanner left at its defaults. -/
def maxScanTokenSize : Nat := 64 * 1024

/-- Go `dropCR` of `bufio.ScanLines`: drops one trailing carriage return
(character 13). -/
def dropCR (data : List Char) : List Char :=
  if data.getLast? = some (Char.ofNat 13) then data.dropLast else data

/-- The tokens `scanner.Text()` returns on the successive calls of `scanner.Scan()`
that return true, for the subprocess output given as first argument; `cur` holds
the part of the current line read so far.  A line feed (character 10) ends the
line; at the end of the output an unfinished, non-empty line is a last token; a
line of `maxScanTokenSize` bytes or more ends the scan. -/
def scanTokens : List Char → String → List String
  | [], cur =>
    if cur.data.isEmpty then []
    else if maxScanTokenSize ≤ cur.utf8ByteSize then []
    else [String.mk (dropCR cur.data)]
  | c :: cs, cur =>
    if c.toNat == 10 then
      if maxScanTokenSize ≤ cur.utf8ByteSize then []
      else String.mk (dropCR cur.data) :: scanTokens cs ""
    else scanTokens cs (cur.push c)

/-- The body of the loop `for scanner.Scan() { ... }` (lines 142-148), run on the
tokens the scanner yields.  `writeOk k` tells whether the `k`-th call of
`c.WriteMessage` returns a nil error; the first argument numbers the next call.
A failed write runs `c.Close()` and `cancel()`, and the loop goes on with the
next `scanner.Scan()`. -/
def forwardLoop (writeOk : Nat → Bool) : Nat → List String → List Event
  | _, [] => []
  | k, line :: rest =>
    Event.scan line :: Event.write 1 line (writeOk k) ::
      ((if writeOk k then [] else [Event.close, Event.cancel]) ++
        forwardLoop writeOk (k + 1) rest)

/-- Lines 141-150: the scanner over the subprocess output `stdout`, the forwarding
loop over its tokens, then `cmd.Wait()`. -/
def session (writeOk : Nat → Bool) (stdout : String) : List Event :=
  forwardLoop writeOk 0 (scanTokens stdout.data "") ++ [Event.wait]

/-- The messages handed to `c.WriteMessage`, in call order, with their types. -/
def writeCalls (es : List Event) : List (Nat × String) :=
  es.filterMap fun e =>
    match e with
    | Event.write t m _ => some (t, m)
    | _ => none

/-- The lines read from the scanner, in order. -/
def scanned (es : List Event) : List String :=
  es.filterMap fun e =>
    match e with
    | Event.scan l => some l
    | _ => none

/-- The events that follow the first failed `WriteMessage` call. -/
def afterFirstFailure : List Event → List Event
  | [] => []
  | Event.write _ _ false :: es => es
  | _ :: es => afterFirstFailure es

/-! ## `/list-services` handler (main.go lines 65-95) -/

/-- Result `(out, err)` of `exec.Command(...).Output()`; `failed` is `err != nil`. -/
structure CmdOutput where
  out : String
  failed : Bool

/-- Arguments of the `systemctl` call (lines 66-69). -/
def listUnitsArgs (user : Bool) : List String :=
  let args := ["list-units", "--type=service", "--plain", "--no-pager"]
  if user then args ++ ["--user"] else args

/-- Arguments of the `docker` call (line 79). -/
def dockerPsArgs : List String :=
  ["ps", "-a", "--no-trunc", "--format", "\"\x7b\x7b.ID\x7d\x7d\":\"\x7b\x7b.Names\x7d\x7d\","]

/-- Body of the loop `for id, name := range dockerLookup` (lines 86-90). -/
def prependContainer (outStr : String) (entry : String × String) : String :=
  if entry.1 != "" then
    entry.1 ++ ".docker human-name=" ++ entry.2 ++ ".docker\n" ++ outStr
  else outStr

/-- The `/list-services` handler.  `run` executes an external command;
`rangeLookup text` lists the entries of the map that `json.Unmarshal` fills from
`text`, in the order the `range` loop visits them (Go leaves that order
unspecified).  The result is the error returned by the handler or the response
body; `c.SendString` returns no error. -/
def listServices (user docker : Bool) (run : String → List String → CmdOutput)
    (rangeLookup : String → List (String × String)) : Except String String :=
  let native := run "systemctl" (listUnitsArgs user)
  let outStr := native.out
  let outStr :=
    if docker then
      let dockerOut := run "docker" dockerPsArgs
      if dockerOut.failed then outStr
      else
        (rangeLookup ("\x7b" ++ dockerOut.out ++ "\"\":\"\"\x7d")).foldl prependContainer outStr
    else outStr
  Except.ok outStr

/-- Concatenation of a list of text lines. -/
def concatLines : List String → String
  | [] => ""
  | l :: ls => l ++ concatLines ls

/-- The listing line of one container, as the specification words it: the identifier
carrying the container marker, a space, the display name, a line feed. -/
def containerLine (entry : String × String) : String :=
  (entry.1 ++ ".docker") ++ " " ++ ("human-name=" ++ entry.2 ++ ".docker") ++ "\n"

/-! ### Sample environments -/

/-- A host where `systemctl` lists one unit and the `docker` command fails. -/
def hostWithoutDocker (cmd : String) (_ : List String) : CmdOutput :=
  if cmd == "docker" then CmdOutput.mk "" true
  else CmdOutput.mk "cron.service loaded active running\n" false

/-- A host where `systemctl` lists one unit and `docker ps` lists two containers. -/
def hostWithDocker (cmd : String) (_ : List String) : CmdOutput :=
  if cmd == "docker" then CmdOutput.mk "\"abc\":\"web\",\"def\":\"db\"," false
  else CmdOutput.mk "cron.service loaded active running\n" false

/-- One visiting order of the lookup table decoded on `hostWithDocker`, the entry
with the empty identifier included. -/
def sampleLookup (_ : String) : List (String × String) :=
  [("abc", "web"), ("", ""), ("def", "db")]

/-! ## Lemmas on the string helpers -/

theorem hasSuffix_append (s m : String) : hasSuffix (s ++ m) m = true := by
  simp [hasSuffix, String.data_append]

theorem trimSuffix_append (s m : String) : trimSuffix (s ++ m) m = s := by
  simp [trimSuffix, hasSuffix_append, String.data_append]

theorem trimSuffix_append_cancel (s m : String) (h : hasSuffix s m = true) :
    trimSuffix s m ++ m = s := by
  have hd : (trimSuffix s m).data = s.data.take (s.data.length - m.data.length) := by
    unfold trimSuffix
    rw [if_pos h]
  simp only [hasSuffix, Bool.and_eq_true, decide_eq_true_eq, beq_iff_eq] at h
  apply String.ext
  rw [String.data_append, hd]
  have key := List.take_append_drop (s.data.length - m.data.length) s.data
  rw [h.2] at key
  exact key

theorem beginsWith_append (p x : String) : beginsWith (p ++ x) p = true := by
  simp [beginsWith, String.data_append]

theorem beginsWith_append_head_ne (a x p : String) (c d : Char)
    (ha : a.data.head? = some c) (hp : p.data.head? = some d) (hcd : c ≠ d) :
    beginsWith (a ++ x) p = false := by
  unfold beginsWith
  rw [String.data_append]
  cases hda : a.data with
  | nil => rw [hda] at ha; simp at ha
  | cons c1 cs =>
    cases hdp : p.data with
    | nil => rw [hdp] at hp; simp at hp
    | cons d1 ds =>
      rw [hda] at ha
      rw [hdp] at hp
      simp only [List.head?_cons, Option.some.injEq] at ha hp
      subst ha hp
      simp [hcd]

/-! ## Lemmas on the argument builder -/

theorem appendService_eq (user docker : Bool) (args : List String) (s : String) :
    appendService user docker args s = args ++ [clause user docker s, "+"] := by
  unfold appendService clause
  split
  · rfl
  · split <;> rfl

theorem foldl_appendService (user docker : Bool) (services args : List String) :
    services.foldl (appendService user docker) args =
      args ++ services.flatMap (fun s => [clause user docker s, "+"]) := by
  induction services generalizing args with
  | nil => simp
  | cons s t ih =>
    rw [List.foldl_cons, ih, appendService_eq]
    simp

theorem flatMap_eq_intersperse (f : String → String) (sep : String) (s : String)
    (t : List String) :
    (s :: t).flatMap (fun x => [f x, sep]) = List.intersperse sep ((s :: t).map f) ++ [sep] := by
  induction t generalizing s with
  | nil => simp
  | cons u v ih =>
    have h := ih u
    simp only [List.flatMap_cons, List.map_cons] at h ⊢
    rw [h]
    simp

theorem isFilterClause_clause (user docker : Bool) (s : String) :
    isFilterClause (clause user docker s) = true := by
  unfold clause isFilterClause
  split
  · simp [beginsWith_append]
  · split <;> simp [beginsWith_append]

theorem clause_ne_separator (user docker : Bool) (s : String) :
    clause user docker s ≠ "+" := by
  intro h
  have hc := isFilterClause_clause user docker s
  rw [h] at hc
  exact absurd hc (by decide)

theorem getElem?_pred_length_snoc (l : List String) (a : String) :
    (l ++ [a])[(l ++ [a]).length - 1]? = some a := by
  simp

theorem take_pred_length_snoc (l : List String) (a : String) :
    (l ++ [a]).take ((l ++ [a]).length - 1) = l := by
  simp

theorem buildArgs_normalized (user docker : Bool) (services : List String) :
    buildArgs user docker services = some (normalizedArgs user docker services) := by
  have hbase : (if user = true then ["-b"] ++ ["--user"] else ["-b"]) = baseArgs user := by
    cases user <;> rfl
  unfold buildArgs
  simp only [hbase, foldl_appendService]
  cases services with
  | nil => cases user <;> rfl
  | cons s t =>
    rw [flatMap_eq_intersperse, ← List.append_assoc, getElem?_pred_length_snoc]
    simp only [beq_self_eq_true, if_true, take_pred_length_snoc]
    rfl

theorem countP_intersperse_clauses (user docker : Bool) (services : List String) :
    (List.intersperse "+" (services.map (clause user docker))).countP isFilterClause =
      services.length := by
  have hsep : isFilterClause "+" = false := by decide
  induction services with
  | nil => rfl
  | cons s t ih =>
    cases t with
    | nil => simp [isFilterClause_clause]
    | cons u v =>
      simp only [List.map_cons, List.intersperse_cons_cons] at ih ⊢
      rw [List.countP_cons_of_pos _ _ (isFilterClause_clause user docker s),
        List.countP_cons_of_neg _ _ (by simp [hsep]), ih]
      simp

theorem count_separator_intersperse_clauses (user docker : Bool) (services : List String) :
    (List.intersperse "+" (services.map (clause user docker))).count "+" =
      services.length - 1 := by
  induction services with
  | nil => rfl
  | cons s t ih =>
    cases t with
    | nil => simp [List.count_cons, clause_ne_separator]
    | cons u v =>
      simp only [List.map_cons, List.intersperse_cons_cons] at ih ⊢
      rw [List.count_cons_of_ne (Ne.symm (clause_ne_separator user docker s)),
        List.count_cons_self, ih]
      simp

theorem countP_baseArgs (user : Bool) : (baseArgs user).countP isFilterClause = 0 := by
  cases user <;> decide

theorem count_separator_baseArgs (user : Bool) : (baseArgs user).count "+" = 0 := by
  cases user <;> decide

theorem getElem?_intersperse_even (sep : String) (l : List String) (k : Nat) :
    (List.intersperse sep l)[2 * k]? = l[k]? := by
  induction l generalizing k with
  | nil => simp
  | cons a t ih =>
    cases t with
    | nil =>
      cases k with
      | zero => simp
      | succ n => simp [Nat.mul_succ]
    | cons b u =>
      cases k with
      | zero => simp
      | succ n =>
        have h := ih n
        simp only [List.intersperse_cons_cons, Nat.mul_succ] at h ⊢
        simpa using h

theorem getElem?_normalizedArgs_clause (user docker : Bool) (services : List String) (k : Nat)
    (s : String) (hk : services[k]? = some s) :
    (normalizedArgs user docker services)[(baseArgs user).length + 2 * k]? =
      some (clause user docker s) := by
  have hin : (List.intersperse "+" (services.map (clause user docker)))[2 * k]? =
      some (clause user docker s) := by
    rw [getElem?_intersperse_even, List.getElem?_map, hk]
    rfl
  have hlt : 2 * k < (List.intersperse "+" (services.map (clause user docker))).length := by
    by_contra hge
    rw [List.getElem?_eq_none (by omega)] at hin
    exact absurd hin (by simp)
  unfold normalizedArgs
  rw [List.append_assoc, List.getElem?_append_right (by omega), Nat.add_sub_cancel_left,
    List.getElem?_append_left hlt, hin]

/-! ## The journalctl argument list -/

/-- C1: for every mode and every non-empty selection of N services, the argument
list built by the `/ws` handler holds exactly N per-service filter clauses and
exactly N-1 arguments equal to the separator `+`. -/
theorem filter_clause_and_separator_count (user docker : Bool) (services : List String)
    (hne : services ≠ []) :
    ∃ args, buildArgs user docker services = some args ∧
      args.countP isFilterClause = services.length ∧
      args.count "+" + 1 = services.length := by
  refine ⟨_, buildArgs_normalized user docker services, ?_, ?_⟩
  · unfold normalizedArgs
    rw [List.countP_append, List.countP_append, countP_baseArgs, countP_intersperse_clauses]
    have ht : tailArgs.countP isFilterClause = 0 := by decide
    rw [ht]
    simp
  · unfold normalizedArgs
    rw [List.count_append, List.count_append, count_separator_baseArgs,
      count_separator_intersperse_clauses]
    have ht : tailArgs.count "+" = 0 := by decide
    have hpos : 0 < services.length := List.length_pos.mpr hne
    rw [ht]
    omega

theorem filter_clause_and_separator_count_witness :
    ["nginx.service", "abc123.docker", "cron.service"] ≠ [] ∧
    ∃ args, buildArgs true true ["nginx.service", "abc123.docker", "cron.service"] = some args ∧
      args.countP isFilterClause = ["nginx.service", "abc123.docker", "cron.service"].length ∧
      args.count "+" + 1 = ["nginx.service", "abc123.docker", "cron.service"].length :=
  ⟨by decide, filter_clause_and_separator_count true true
    ["nginx.service", "abc123.docker", "cron.service"] (by decide)⟩

/-- C2: for the empty selection, in every mode, the argument list is exactly `-b`
(then `--user` when the user flag is set) followed by
`--all -f -n 100 -o json`; it holds no filter clause and no `+`, so the trim of a
trailing separator removes nothing. -/
theorem empty_selection_args (user docker : Bool) :
    ∃ args, buildArgs user docker [] = some args ∧
      args = ["-b"] ++ (if user then ["--user"] else []) ++
        ["--all", "-f", "-n", "100", "-o", "json"] ∧
      args.countP isFilterClause = 0 ∧ args.count "+" = 0 := by
  cases user <;> cases docker <;> exact ⟨_, rfl, rfl, by decide, by decide⟩

/-- C3: with container mode on and in both scope modes, the clause emitted for the
k-th selected identifier, when it ends in `.docker`, is `CONTAINER_ID_FULL=`
followed by the identifier without that marker; it is neither a `_SYSTEMD_UNIT=`
nor a `_SYSTEMD_USER_UNIT=` clause. -/
theorem container_marker_gives_container_filter (user : Bool) (services : List String)
    (k : Nat) (service : String) (hk : services[k]? = some service)
    (hm : hasSuffix service ".docker" = true) :
    ∃ id args, service = id ++ ".docker" ∧ buildArgs user true services = some args ∧
      args[(if user then 2 else 1) + 2 * k]? = some ("CONTAINER_ID_FULL=" ++ id) ∧
      beginsWith ("CONTAINER_ID_FULL=" ++ id) "_SYSTEMD_UNIT=" = false ∧
      beginsWith ("CONTAINER_ID_FULL=" ++ id) "_SYSTEMD_USER_UNIT=" = false := by
  refine ⟨trimSuffix service ".docker", _, (trimSuffix_append_cancel _ _ hm).symm,
    buildArgs_normalized user true services, ?_, ?_, ?_⟩
  · have h := getElem?_normalizedArgs_clause user true services k service hk
    have hc : clause user true service = "CONTAINER_ID_FULL=" ++ trimSuffix service ".docker" := by
      simp [clause, hm]
    have hb : (baseArgs user).length = if user then 2 else 1 := by cases user <;> rfl
    rw [hc, hb] at h
    exact h
  · exact beginsWith_append_head_ne _ _ _ 'C' '_' (by decide) (by decide) (by decide)
  · exact beginsWith_append_head_ne _ _ _ 'C' '_' (by decide) (by decide) (by decide)

theorem container_marker_gives_container_filter_witness :
    ["nginx.service", "abc123.docker"][1]? = some "abc123.docker" ∧
    hasSuffix "abc123.docker" ".docker" = true ∧
    ∃ id args, "abc123.docker" = id ++ ".docker" ∧
      buildArgs true true ["nginx.service", "abc123.docker"] = some args ∧
      args[(if true then 2 else 1) + 2 * 1]? = some ("CONTAINER_ID_FULL=" ++ id) ∧
      beginsWith ("CONTAINER_ID_FULL=" ++ id) "_SYSTEMD_UNIT=" = false ∧
      beginsWith ("CONTAINER_ID_FULL=" ++ id) "_SYSTEMD_USER_UNIT=" = false :=
  ⟨by decide, by decide, container_marker_gives_container_filter true
    ["nginx.service", "abc123.docker"] 1 "abc123.docker" (by decide) (by decide)⟩

/-- C4: for every mode and every selection, the argument list the handler builds
incrementally (clause and `+` appended per service, then one trailing `+` trimmed)
equals the normalized form: base arguments, the clauses of the services in input
order joined by single `+` separators, tail arguments.  For the selection
`nginx.service`, `abc123.docker` in system scope with container mode on, that is
`-b _SYSTEMD_UNIT=nginx.service + CONTAINER_ID_FULL=abc123 --all -f -n 100 -o json`. -/
theorem buildArgs_eq_normalizedArgs (user docker : Bool) (services : List String) :
    buildArgs user docker services = some (normalizedArgs user docker services) ∧
    buildArgs false true ["nginx.service", "abc123.docker"] =
      some ["-b", "_SYSTEMD_UNIT=nginx.service", "+", "CONTAINER_ID_FULL=abc123",
        "--all", "-f", "-n", "100", "-o", "json"] :=
  ⟨buildArgs_normalized user docker services, by decide⟩

/-- C10: for every container identifier `id`, the listing line of a container
starts with the advertised identifier `id ++ ".docker"` followed by a space, and
selecting that advertised identifier in container mode yields exactly the clause
`CONTAINER_ID_FULL=` followed by `id`, in both scope modes: stripping the marker
removes exactly the one marker the listing added. -/
theorem listing_streaming_round_trip (user : Bool) (id name outStr : String) :
    prependContainer outStr (id, name) =
      (if id != "" then (id ++ ".docker") ++ (" human-name=" ++ name ++ ".docker\n" ++ outStr)
        else outStr) ∧
    trimSuffix (id ++ ".docker") ".docker" = id ∧
    buildArgs user true [id ++ ".docker"] =
      some (baseArgs user ++ ["CONTAINER_ID_FULL=" ++ id] ++ tailArgs) := by
  refine ⟨?_, trimSuffix_append id ".docker", ?_⟩
  · unfold prependContainer
    split
    · simp only [String.append_assoc]
      rfl
    · rfl
  · rw [buildArgs_normalized]
    simp [normalizedArgs, clause, hasSuffix_append, trimSuffix_append]

/-! ## Decoding the selection -/

/-- C5 as stated fails: the parameter value `["a",1]` is not a JSON array of
strings, yet the handler does not fall back to the empty selection.  The decoder
keeps both elements, the number as the empty string, and two filter clauses are
built. -/
theorem malformed_selection_not_fail_open :
    isStringArray "[\"a\",1]" = false ∧
    decodeServices "[\"a\",1]" = ["a", ""] ∧
    wsArgs false false "[\"a\",1]" =
      some ["-b", "_SYSTEMD_UNIT=a", "+", "_SYSTEMD_UNIT=", "--all", "-f", "-n", "100",
        "-o", "json"] ∧
    wsArgs false false "[\"a\",1]" ≠ buildArgs false false [] := by
  decide

/-- C5 amended: for every value of the `services` parameter that is not
syntactically valid JSON, or whose top-level JSON value is not an array, the
handler fails open: the decoded selection is empty and the argument list is that
of the empty selection, without any filter clause.  The empty parameter is such a
value. -/
theorem non_array_selection_fails_open (user docker : Bool) (query : String)
    (h : ∀ elems, parseJSON query ≠ some (JVal.arr elems)) :
    decodeServices query = [] ∧
    wsArgs user docker query = buildArgs user docker [] ∧
    (∃ args, wsArgs user docker query = some args ∧ args.countP isFilterClause = 0) ∧
    wsArgs user docker "" = buildArgs user docker [] := by
  have hd : decodeServices query = [] := by
    unfold decodeServices
    split
    · next elems heq => exact absurd heq (h elems)
    · rfl
  refine ⟨hd, ?_, ?_, rfl⟩
  · unfold wsArgs
    rw [hd]
  · refine ⟨normalizedArgs user docker [], ?_, ?_⟩
    · unfold wsArgs
      rw [hd]
      exact buildArgs_normalized user docker []
    · cases user <;> cases docker <;> decide

theorem non_array_selection_fails_open_witness :
    (∀ elems, parseJSON "[\"nginx.service\"," ≠ some (JVal.arr elems)) ∧
    decodeServices "[\"nginx.service\"," = [] ∧
    wsArgs true true "[\"nginx.service\"," = buildArgs true true [] ∧
    (∃ args, wsArgs true true "[\"nginx.service\"," = some args ∧
      args.countP isFilterClause = 0) ∧
    wsArgs true true "" = buildArgs true true [] :=
  have hparse : parseJSON "[\"nginx.service\"," = none := by rfl
  have hne : ∀ elems, parseJSON "[\"nginx.service\"," ≠ some (JVal.arr elems) := by
    intro elems h
    rw [hparse] at h
    cases h
  ⟨hne, non_array_selection_fails_open true true "[\"nginx.service\"," hne⟩

/-! ## The scanner -/

theorem writeCalls_forwardLoop (writeOk : Nat → Bool) (k : Nat) (lines : List String) :
    writeCalls (forwardLoop writeOk k lines) = lines.map (fun l => (1, l)) := by
  induction lines generalizing k with
  | nil => rfl
  | cons l t ih =>
    have h := ih (k + 1)
    unfold writeCalls at h ⊢
    cases hw : writeOk k <;> simp [forwardLoop, hw, h]

theorem scanned_forwardLoop (writeOk : Nat → Bool) (k : Nat) (lines : List String) :
    scanned (forwardLoop writeOk k lines) = lines := by
  induction lines generalizing k with
  | nil => rfl
  | cons l t ih =>
    have h := ih (k + 1)
    unfold scanned at h ⊢
    cases hw : writeOk k <;> simp [forwardLoop, hw, h]

/-- C6: evaluation of the session when the subprocess has written the lines `a`
and `b` and the client is gone.  After the failed write of `a` the loop calls
`Close` and `cancel`, then reads `b` from the scanner and hands it to
`WriteMessage` as well; whatever the write outcomes, every line the scanner
yields is read and passed to `WriteMessage`. -/
theorem forward_loop_continues_after_failed_write :
    session (fun _ => false) "a\nb\n" =
      [Event.scan "a", Event.write 1 "a" false, Event.close, Event.cancel,
        Event.scan "b", Event.write 1 "b" false, Event.close, Event.cancel, Event.wait] ∧
    afterFirstFailure (session (fun _ => false) "a\nb\n") =
      [Event.close, Event.cancel,
        Event.scan "b", Event.write 1 "b" false, Event.close, Event.cancel, Event.wait] ∧
    ∀ (writeOk : Nat → Bool) (lines : List String),
      scanned (forwardLoop writeOk 0 lines ++ [Event.wait]) = lines ∧
      writeCalls (forwardLoop writeOk 0 lines ++ [Event.wait]) =
        lines.map (fun l => (1, l)) := by
  refine ⟨by decide, by decide, ?_⟩
  intro writeOk lines
  have h1 := scanned_forwardLoop writeOk 0 lines
  have h2 := writeCalls_forwardLoop writeOk 0 lines
  unfold scanned at h1 ⊢
  unfold writeCalls at h2 ⊢
  simp [h1, h2]

theorem prependContainer_eq (outStr : String) (entry : String × String) :
    prependContainer outStr entry =
      if entry.1 != "" then containerLine entry ++ outStr else outStr := by
  unfold prependContainer containerLine
  split
  · have hlit : ".docker human-name=" = ".docker" ++ " " ++ "human-name=" := by decide
    have hend : ".docker\n" = ".docker" ++ "\n" := by decide
    rw [hlit, hend]
    simp only [String.append_assoc]
  · rfl

theorem foldl_prependContainer (lookup : List (String × String)) (outStr : String) :
    lookup.foldl prependContainer outStr =
      concatLines (((lookup.filter (fun e => e.1 != "")).map containerLine).reverse) ++
        outStr := by
  induction lookup generalizing outStr with
  | nil => simp [concatLines]
  | cons e t ih =>
    have hcat : ∀ (xs : List String) (y : String),
        concatLines (xs ++ [y]) = concatLines xs ++ y := by
      intro xs y
      induction xs with
      | nil => simp [concatLines]
      | cons x xs ihx => simp [concatLines, ihx, String.append_assoc]
    rw [List.foldl_cons, ih, prependContainer_eq]
    by_cases he : (e.1 != "") = true
    · simp [he, hcat, String.append_assoc]
    · simp [he]

/-- C8: with container merging enabled, when the container runtime listing command
fails, the handler returns no error and the response body is exactly the native
listing output, whatever that output is. -/
theorem docker_failure_keeps_native_listing (user : Bool)
    (run : String → List String → CmdOutput) (rangeLookup : String → List (String × String))
    (hfail : (run "docker" dockerPsArgs).failed = true) :
    listServices user true run rangeLookup =
      Except.ok (run "systemctl" (listUnitsArgs user)).out := by
  simp [listServices, hfail]

theorem docker_failure_keeps_native_listing_witness :
    (hostWithoutDocker "docker" dockerPsArgs).failed = true ∧
    listServices false true hostWithoutDocker sampleLookup =
      Except.ok (hostWithoutDocker "systemctl" (listUnitsArgs false)).out :=
  ⟨by decide,
    docker_failure_keeps_native_listing false hostWithoutDocker sampleLookup (by decide)⟩

/-- C9: with container merging enabled, when the container listing succeeds and
the decoded lookup table is visited in the order `L`, the response body is a block
of container lines followed by the unmodified native listing output; the block
holds one line `<id>.docker human-name=<name>.docker` per entry of `L` whose
identifier is not empty (the entry visited last comes first), and the entry with
the empty identifier contributes nothing. -/
theorem docker_success_prepends_container_lines (user : Bool)
    (run : String → List String → CmdOutput) (rangeLookup : String → List (String × String))
    (hok : (run "docker" dockerPsArgs).failed = false) :
    listServices user true run rangeLookup =
      Except.ok (concatLines
        ((((rangeLookup ("\x7b" ++ (run "docker" dockerPsArgs).out ++ "\"\":\"\"\x7d")).filter
          (fun e => e.1 != "")).map containerLine).reverse) ++
        (run "systemctl" (listUnitsArgs user)).out) := by
  simp [listServices, hok, foldl_prependContainer]

theorem docker_success_prepends_container_lines_witness :
    (hostWithDocker "docker" dockerPsArgs).failed = false ∧
    listServices true true hostWithDocker sampleLookup =
      Except.ok (concatLines
        ((((sampleLookup ("\x7b" ++ (hostWithDocker "docker" dockerPsArgs).out ++
          "\"\":\"\"\x7d")).filter (fun e => e.1 != "")).map containerLine).reverse) ++
        (hostWithDocker "systemctl" (listUnitsArgs true)).out) :=
  ⟨by decide,
    docker_success_prepends_container_lines true hostWithDocker sampleLookup (by decide)⟩

end JournalctlProxy
